import Mathlib

/-!
Shallow embedding of the `mcp-server-local-web-search` pipeline
(`src/index.ts` with its in-page link extractor `src/src/extract.ts`).

JavaScript strings are modelled as Lean `String` viewed as its list of
characters; the JS string primitives used by the source (`slice`, `trim`,
`startsWith("/")`) are embedded as explicit list operations.  Code the
pipeline imports from the vendored `local-web-search` package
(`browser.js`, `utils.js`, `to-markdown.js`, `macro.js`) is not part of
this repository's sources: the browser and the markdown converter are
kept as explicit parameters, and `shouldSkipDomain` is modelled from the
spec (see its doc comment).
-/

namespace LocalWebSearch

/-- Model of JS `s.slice(0, n)` for `n ≥ 0`: the first `n` characters. -/
def jsSlice (s : String) (n : Nat) : String :=
  String.mk (s.toList.take n)

/-- Whitespace stripped by JS `trim` and by the WHATWG URL parser:
C0 controls and the space character. -/
def isJsSpace (c : Char) : Bool :=
  c.val ≤ 32

/-- Model of JS `s.trim()`: strip leading and trailing whitespace. -/
def jsTrim (s : String) : String :=
  String.mk (((s.toList.dropWhile isJsSpace).reverse.dropWhile isJsSpace).reverse)

/-- Scheme characters allowed after the leading ASCII letter of a URL scheme. -/
def isSchemeChar (c : Char) : Bool :=
  c.isAlphanum || c = '+' || c = '-' || c = '.'

/-- Scans for the colon that terminates a URL scheme. -/
def schemeTailValid : List Char → Bool
  | [] => false
  | c :: rest => if c = ':' then true else isSchemeChar c && schemeTailValid rest

/-- Model of `new URL(url)` succeeding (the `isValidUrl` helper of
`src/src/extract.ts`): after stripping surrounding whitespace the string
must begin with an ASCII-alphabetic scheme terminated by a colon; in
particular every base-less relative reference such as `/path` fails. -/
def isValidUrl (url : String) : Bool :=
  match url.toList.dropWhile isJsSpace with
  | [] => false
  | c :: rest => c.isAlpha && schemeTailValid rest

/-- Model of JS `url.startsWith("/")`: the first character is a slash. -/
def startsWithSlash (url : String) : Bool :=
  match url.toList with
  | c :: _ => c = '/'
  | [] => false

/-- A candidate result link extracted from the rendered results page
(the `SearchResult` record of `src/src/extract.ts`: title and url). -/
structure CandidateLink where
  title : String
  url : String
deriving DecidableEq, Repr

/-- One matched `.links_main` element of the rendered results page, as the
extractor observes it: the optional `href` attribute of its first anchor
and that anchor's optional text content. -/
structure RawLinkEl where
  href : Option String
  titleText : Option String
deriving DecidableEq, Repr

/-- Per-element body of the `elements.forEach` loop of `getSearchPageLinks`
(`src/src/extract.ts`): reject a missing/empty or invalid `href`, trim the
title text, resolve a root-relative href against `https://duckduckgo.com`,
and drop the element when the resulting title or url is empty. -/
def extractLink (el : RawLinkEl) : Option CandidateLink :=
  match el.href with
  | none => none
  | some url =>
    if url = "" || !isValidUrl url then none
    else
      let title := jsTrim (el.titleText.getD "")
      let finalUrl := if startsWithSlash url then "https://duckduckgo.com" ++ url else url
      if title = "" || finalUrl = "" then none
      else some { title := title, url := finalUrl }

/-- `getSearchPageLinks` (`src/src/extract.ts`): the ordered candidate links
kept from the matched result elements of the rendered results page. -/
def getSearchPageLinks (els : List RawLinkEl) : List CandidateLink :=
  els.filterMap extractLink

/-- The `SearchOptions` record of `src/index.ts`. -/
structure SearchOptions where
  query : String
  maxResults : Option Nat := none
  excludeDomains : List String := []

/-- The `q` parameter built by `getSearchUrl` (`src/index.ts`): each excluded
domain contributes a `-site:` term, joined by spaces and followed by one
space, before the query; an absent or empty exclusion list contributes
nothing. -/
def searchQueryParam (options : SearchOptions) : String :=
  (if options.excludeDomains.isEmpty then ""
   else String.intercalate " " (options.excludeDomains.map (fun d => "-site:" ++ d)) ++ " ")
  ++ options.query

/-- Hexadecimal digit characters used by percent-encoding. -/
def hexDigitChars : List Char :=
  ['0', '1', '2', '3', '4', '5', '6', '7', '8', '9', 'A', 'B', 'C', 'D', 'E', 'F']

/-- Percent-encodes one byte as `%XY`. -/
def encodeByte (b : UInt8) : String :=
  String.mk ['%', hexDigitChars.getD (b.toNat / 16) '0', hexDigitChars.getD (b.toNat % 16) '0']

/-- Model of `URLSearchParams` serialization for one character
(`application/x-www-form-urlencoded`): alphanumerics and `*-._` are kept,
a space becomes `+`, everything else is the percent-encoding of its UTF-8
bytes. -/
def encodeChar (c : Char) : String :=
  if c.isAlphanum || c = '*' || c = '-' || c = '.' || c = '_' then String.mk [c]
  else if c = ' ' then "+"
  else String.join (((String.mk [c]).toUTF8.toList).map encodeByte)

/-- Model of `URLSearchParams` serialization of one string. -/
def formUrlEncode (s : String) : String :=
  String.join (s.toList.map encodeChar)

/-- `getSearchUrl` (`src/index.ts`): the Google search URL with the `q`
parameter of `searchQueryParam`, `num` set to `maxResults || 10`, and
`udm=14`. -/
def getSearchUrl (options : SearchOptions) : String :=
  let num : Nat :=
    match options.maxResults with
    | none => 10
    | some 0 => 10
    | some n => n
  let params : List (String × String) :=
    [("q", searchQueryParam options), ("num", toString num), ("udm", "14")]
  "https://www.google.com/search?" ++
    String.intercalate "&" (params.map (fun p => formUrlEncode p.1 ++ "=" ++ formUrlEncode p.2))

/-- Characters after the first `://` of a URL, if any. -/
def afterScheme : List Char → Option (List Char)
  | ':' :: '/' :: '/' :: rest => some rest
  | _ :: rest => afterScheme rest
  | [] => none

/-- Host component of a URL: the text between `://` and the next
`/`, `:`, `?` or `#`. -/
def urlHost (url : String) : String :=
  match afterScheme url.toList with
  | some rest => String.mk (rest.takeWhile (fun c => !(c = '/' || c = ':' || c = '?' || c = '#')))
  | none => ""

/-- Whether a host falls under a domain in the `-site:` sense: equal to it
or ending in `.` followed by it. -/
def hostMatches (host domain : String) : Bool :=
  host = domain || ("." ++ domain).toList.isSuffixOf host.toList

/-- Modelled from the spec: `shouldSkipDomain` is imported from
`local-web-search/src/utils.js`, which is not among this repository's
sources.  Per the spec it drops URLs whose host is on a fixed skip-list of
aggregator/ad domains; it receives only the URL, so it cannot depend on the
request. -/
def skipDomains : List String :=
  ["doubleclick.net", "googleadservices.com", "googlesyndication.com"]

/-- Modelled from the spec: fixed skip-list test applied to one URL. -/
def shouldSkipDomain (url : String) : Bool :=
  skipDomains.any (fun d => hostMatches (urlHost url) d)

/-- The stateful `links.filter` of `search` (`src/index.ts`): walking the
extracted links left to right with the run-scoped `visitedUrls` set, drop a
link whose url was already seen, otherwise record its url and keep the link
unless `shouldSkipDomain` rejects it.  The skip predicate is a parameter
because `shouldSkipDomain` is vendored code (see `shouldSkipDomain`). -/
def dedupFilter (skip : String → Bool) : List CandidateLink → List String → List CandidateLink
  | [], _ => []
  | link :: rest, visited =>
    if link.url ∈ visited then dedupFilter skip rest visited
    else if skip link.url then dedupFilter skip rest (link.url :: visited)
    else link :: dedupFilter skip rest (link.url :: visited)

/-- Outcome of `browser.evaluateOnPage` on one candidate link: the call
throws (navigation, timeout or in-page evaluation error), returns a null
result, or returns the extracted raw content and page title. -/
inductive FetchOutcome where
  | err
  | nullResult
  | ok (content : String) (title : String)
deriving DecidableEq, Repr

/-- The final `SearchResult` record of `src/index.ts`. -/
structure SearchResult where
  title : String
  url : String
  content : Option String := none
  description : Option String := none
deriving DecidableEq, Repr

/-- Default `SearchResult` used for out-of-range list access in statements. -/
def defResult : SearchResult :=
  { title := "", url := "" }

/-- Default `CandidateLink` used for out-of-range list access in statements. -/
def defLink : CandidateLink :=
  { title := "", url := "" }

/-- The JS truncation step `truncate ? content.slice(0, truncate) : content`
of `search` (`src/index.ts`): an absent truncate — and, because `0` is falsy,
a zero truncate — leaves the content whole, otherwise the first `truncate`
characters are kept. -/
def applyTruncate (truncate : Option Nat) (content : String) : String :=
  match truncate with
  | none => content
  | some t => if t = 0 then content else jsSlice content t

/-- The per-link task queued by `search` (`src/index.ts`): a thrown error or
a null evaluation result yields the degraded record with the link's title
and url and no content; a successful evaluation converts the raw content to
markdown, truncates it, and keeps the first 200 characters of the whole
markdown as the description.  (`link.title || ''`, `link.url || ''` and
`result.title || link.title || ''` are JS falsy-chains on strings, embedded
by their string value.)  The markdown converter is a parameter because
`toMarkdown` is vendored code not among this repository's sources. -/
def processLink (toMd : String → String) (truncate : Option Nat)
    (fetch : CandidateLink → FetchOutcome) (link : CandidateLink) : SearchResult :=
  match fetch link with
  | FetchOutcome.err => { title := link.title, url := link.url }
  | FetchOutcome.nullResult => { title := link.title, url := link.url }
  | FetchOutcome.ok rawContent pageTitle =>
    let content := toMd rawContent
    { title := if pageTitle = "" then link.title else pageTitle
      url := link.url
      content := some (applyTruncate truncate content)
      description := some (jsSlice content 200) }

/-- Body of `search` (`src/index.ts`) after the results page evaluated to
`links`: filter through the visited set and the skip-list, return `[]` when
nothing is left, otherwise map every filtered link through its queued task.
`Promise.allSettled` over the task array keeps the array order, and every
task fulfills (its body catches all errors), so the settled filter-and-map
of the source keeps exactly these values in this order. -/
def searchResults (skip : String → Bool) (toMd : String → String) (truncate : Option Nat)
    (fetch : CandidateLink → FetchOutcome) (links : List CandidateLink) : List SearchResult :=
  let filtered := dedupFilter skip links []
  if filtered.isEmpty then []
  else filtered.map (processLink toMd truncate fetch)

/-- `search` (`src/index.ts`) as a function of the rendered results page:
build the search URL from query, limit and exclusions, extract the candidate
links from the page the browser rendered for it (the extractor parameter
stands for `browser.evaluateOnPage(url, getSearchPageLinks, [])`), and
produce the settled results. -/
def search (query : String) (limit : Nat) (excludeDomains : List String)
    (truncate : Option Nat) (extractor : String → List CandidateLink)
    (skip : String → Bool) (toMd : String → String)
    (fetch : CandidateLink → FetchOutcome) : List SearchResult :=
  let url := getSearchUrl { query := query, maxResults := some limit, excludeDomains := excludeDomains }
  searchResults skip toMd truncate fetch (extractor url)

/-- Observable browser-session events of one `search` run. -/
inductive BrowserEvent where
  | launch
  | navigate (url : String)
  | close
deriving DecidableEq, Repr

/-- Number of `close` events in a trace. -/
def closeCount : List BrowserEvent → Nat
  | [] => 0
  | BrowserEvent.close :: rest => closeCount rest + 1
  | _ :: rest => closeCount rest

/-- Model of a JS `try { body } finally { finalizer }` over traced events:
the finalizer's events always follow the body's, and the body's outcome
(value or rethrown exception) is the outcome of the whole. -/
def tryFinally {α : Type} (body : List BrowserEvent × Except String α)
    (finalizer : List BrowserEvent) : List BrowserEvent × Except String α :=
  (body.1 ++ finalizer, body.2)

/-- The `try` block of `search` (`src/index.ts`): navigate to the results
page; if that evaluation throws, the exception escapes the block; otherwise
filter the links and, unless none are left, navigate once per filtered link
(listed here in schedule order — only the multiset of events matters) and
settle the per-link tasks.  No path of the block closes the browser. -/
def searchBody (query : String) (limit : Nat) (excludeDomains : List String)
    (truncate : Option Nat) (linksResult : Except String (List CandidateLink))
    (skip : String → Bool) (toMd : String → String)
    (fetch : CandidateLink → FetchOutcome) :
    List BrowserEvent × Except String (List SearchResult) :=
  let url := getSearchUrl { query := query, maxResults := some limit, excludeDomains := excludeDomains }
  match linksResult with
  | Except.error e => ([BrowserEvent.navigate url], Except.error e)
  | Except.ok links =>
    let filtered := dedupFilter skip links []
    if filtered.isEmpty then ([BrowserEvent.navigate url], Except.ok [])
    else
      (BrowserEvent.navigate url :: filtered.map (fun l => BrowserEvent.navigate l.url),
       Except.ok (filtered.map (processLink toMd truncate fetch)))

/-- `search` (`src/index.ts`) with its session lifecycle: launch the
browser, run the body under `try`, and close the browser in the `finally`
clause on every exit path.  `linksResult` stands for the outcome of the
results-page evaluation (`Except.error` when it throws). -/
def searchTrace (query : String) (limit : Nat) (excludeDomains : List String)
    (truncate : Option Nat) (linksResult : Except String (List CandidateLink))
    (skip : String → Bool) (toMd : String → String)
    (fetch : CandidateLink → FetchOutcome) :
    List BrowserEvent × Except String (List SearchResult) :=
  let run := tryFinally
    (searchBody query limit excludeDomains truncate linksResult skip toMd fetch)
    [BrowserEvent.close]
  (BrowserEvent.launch :: run.1, run.2)

/-- JSON values as the tool-call layer sees them (flat, which is all the
type guard inspects). -/
inductive JsonValue where
  | str (s : String)
  | num (n : Int)
  | boolean (b : Bool)
  | nullV
  | other
deriving DecidableEq, Repr

/-- `isLocalWebSearchArgs` (`src/index.ts`): the arguments are a non-null
object that has a `query` field of string type.  `none` stands for a
non-object or null argument value. -/
def isLocalWebSearchArgs (args : Option (List (String × JsonValue))) : Bool :=
  match args with
  | none => false
  | some fields =>
    match fields.lookup "query" with
    | some (JsonValue.str _) => true
    | _ => false

/-- Query string the handler destructures from validated arguments. -/
def argsQuery (args : Option (List (String × JsonValue))) : String :=
  match args with
  | some fields =>
    match fields.lookup "query" with
    | some (JsonValue.str s) => s
    | _ => ""
  | none => ""

/-- Limit the handler destructures from the arguments (`limit = 10`
default). -/
def argsLimit (args : Option (List (String × JsonValue))) : Nat :=
  match args with
  | some fields =>
    match fields.lookup "limit" with
    | some (JsonValue.num n) => n.toNat
    | _ => 10
  | none => 10

/-- The `local_web_search` branch of the tool-call handler
(`src/index.ts`): reject arguments failing the type guard, otherwise run
`search(query, limit)` — exclusions and truncation are not passed. -/
def handleLocalWebSearch (args : Option (List (String × JsonValue)))
    (linksResult : Except String (List CandidateLink)) (skip : String → Bool)
    (toMd : String → String) (fetch : CandidateLink → FetchOutcome) :
    List BrowserEvent × Except String (List SearchResult) :=
  if isLocalWebSearchArgs args then
    searchTrace (argsQuery args) (argsLimit args) [] none linksResult skip toMd fetch
  else
    ([], Except.error "Invalid arguments for local_web_search")

/-- Two distinct candidate links, a concrete run scenario. -/
def wLinks : List CandidateLink :=
  [{ title := "A", url := "https://a.example/" }, { title := "B", url := "https://b.example/" }]

/-- Concrete fetch behaviour for the scenario of `wLinks`: the first link's
page visit fails, the second succeeds. -/
def wFetch : CandidateLink → FetchOutcome := fun l =>
  if l.url = "https://a.example/" then FetchOutcome.err
  else FetchOutcome.ok "hello world" "B2"

end LocalWebSearch

namespace LocalWebSearch

theorem searchResults_eq_map (skip : String → Bool) (toMd : String → String)
    (truncate : Option Nat) (fetch : CandidateLink → FetchOutcome)
    (links : List CandidateLink) :
    searchResults skip toMd truncate fetch links
      = (dedupFilter skip links []).map (processLink toMd truncate fetch) := by
  unfold searchResults
  cases h : dedupFilter skip links [] <;> simp [h]

theorem processLink_url (toMd : String → String) (truncate : Option Nat)
    (fetch : CandidateLink → FetchOutcome) (link : CandidateLink) :
    (processLink toMd truncate fetch link).url = link.url := by
  unfold processLink
  cases fetch link <;> rfl

theorem getD_map_of_lt {α β : Type} (f : α → β) (l : List α) (i : Nat)
    (h : i < l.length) (da : α) (db : β) :
    (l.map f).getD i db = f (l.getD i da) := by
  induction l generalizing i with
  | nil => simp at h
  | cons x xs ih =>
    cases i with
    | zero => simp
    | succ n =>
      simp only [List.map_cons, List.getD_cons_succ]
      exact ih n (by simpa using h)

theorem dedupFilter_mem_not_visited (skip : String → Bool) :
    ∀ (links : List CandidateLink) (visited : List String),
      ∀ l ∈ dedupFilter skip links visited, l.url ∉ visited
  | [], _, l, hl => by simp [dedupFilter] at hl
  | link :: rest, visited, l, hl => by
    unfold dedupFilter at hl
    by_cases hv : link.url ∈ visited
    · rw [if_pos hv] at hl
      exact dedupFilter_mem_not_visited skip rest visited l hl
    · rw [if_neg hv] at hl
      by_cases hs : skip link.url
      · rw [if_pos hs] at hl
        have := dedupFilter_mem_not_visited skip rest (link.url :: visited) l hl
        intro hmem
        exact this (List.mem_cons_of_mem _ hmem)
      · rw [if_neg hs] at hl
        rcases List.mem_cons.mp hl with heq | htail
        · subst heq; exact hv
        · have := dedupFilter_mem_not_visited skip rest (link.url :: visited) l htail
          intro hmem
          exact this (List.mem_cons_of_mem _ hmem)

theorem dedupFilter_pairwise (skip : String → Bool) :
    ∀ (links : List CandidateLink) (visited : List String),
      (dedupFilter skip links visited).Pairwise (fun a b => a.url ≠ b.url)
  | [], _ => by simp [dedupFilter]
  | link :: rest, visited => by
    unfold dedupFilter
    by_cases hv : link.url ∈ visited
    · rw [if_pos hv]
      exact dedupFilter_pairwise skip rest visited
    · rw [if_neg hv]
      by_cases hs : skip link.url
      · rw [if_pos hs]
        exact dedupFilter_pairwise skip rest (link.url :: visited)
      · rw [if_neg hs]
        refine List.Pairwise.cons ?_ (dedupFilter_pairwise skip rest (link.url :: visited))
        intro b hb
        have := dedupFilter_mem_not_visited skip rest (link.url :: visited) b hb
        intro heq
        exact this (heq ▸ List.mem_cons_self _ _)

theorem dedupFilter_subset (skip : String → Bool) :
    ∀ (links : List CandidateLink) (visited : List String),
      ∀ l ∈ dedupFilter skip links visited, l ∈ links
  | [], _, l, hl => by simp [dedupFilter] at hl
  | link :: rest, visited, l, hl => by
    unfold dedupFilter at hl
    by_cases hv : link.url ∈ visited
    · rw [if_pos hv] at hl
      exact List.mem_cons_of_mem _ (dedupFilter_subset skip rest visited l hl)
    · rw [if_neg hv] at hl
      by_cases hs : skip link.url
      · rw [if_pos hs] at hl
        exact List.mem_cons_of_mem _ (dedupFilter_subset skip rest (link.url :: visited) l hl)
      · rw [if_neg hs] at hl
        rcases List.mem_cons.mp hl with heq | htail
        · exact heq ▸ List.mem_cons_self _ _
        · exact List.mem_cons_of_mem _ (dedupFilter_subset skip rest (link.url :: visited) l htail)

theorem length_mk (l : List Char) : (String.mk l).length = l.length := rfl

theorem jsSlice_length (s : String) (n : Nat) : (jsSlice s n).length = min n s.length := by
  unfold jsSlice
  rw [length_mk, List.length_take]
  rfl

theorem isValidUrl_not_slash (u : String) (h : isValidUrl u = true) :
    startsWithSlash u = false := by
  unfold isValidUrl at h
  unfold startsWithSlash
  cases hc : u.toList with
  | nil => rfl
  | cons c cs =>
    rw [hc] at h
    by_cases hslash : c = '/'
    · subst hslash
      have hsp : isJsSpace '/' = false := by decide
      rw [List.dropWhile_cons, hsp] at h
      simp at h
    · simp [hslash]

theorem closeCount_append (a b : List BrowserEvent) :
    closeCount (a ++ b) = closeCount a + closeCount b := by
  induction a with
  | nil => simp [closeCount]
  | cons e rest ih =>
    (cases e <;> simp [closeCount, ih]); omega

theorem closeCount_map_navigate_url (ls : List CandidateLink) :
    closeCount (ls.map (fun l => BrowserEvent.navigate l.url)) = 0 := by
  induction ls with
  | nil => rfl
  | cons l rest ih => simpa [closeCount] using ih

end LocalWebSearch

namespace LocalWebSearch

/-- C1: failure isolation in the fetch phase.  For every run, every filtered
candidate link yields exactly one entry of the returned list at its own
position (so the output keeps the relative order of the filtered candidate
sequence); when the fetch of the link at position `i` fails, that entry is
the partial result carrying the link's title and url with `content` (and
`description`) absent; and every link whose fetch succeeds still yields its
full result with the truncated markdown as content. -/
theorem c1_failure_isolation (skip : String → Bool) (toMd : String → String)
    (truncate : Option Nat) (fetch : CandidateLink → FetchOutcome)
    (links : List CandidateLink) (i : Nat)
    (hi : i < (dedupFilter skip links []).length)
    (herr : fetch ((dedupFilter skip links []).getD i defLink) = FetchOutcome.err) :
    (searchResults skip toMd truncate fetch links).length = (dedupFilter skip links []).length ∧
    (searchResults skip toMd truncate fetch links).getD i defResult
      = { title := ((dedupFilter skip links []).getD i defLink).title,
          url := ((dedupFilter skip links []).getD i defLink).url } ∧
    ∀ j, j < (dedupFilter skip links []).length →
      ((searchResults skip toMd truncate fetch links).getD j defResult).url
        = ((dedupFilter skip links []).getD j defLink).url ∧
      ∀ c t, fetch ((dedupFilter skip links []).getD j defLink) = FetchOutcome.ok c t →
        ((searchResults skip toMd truncate fetch links).getD j defResult).content
          = some (applyTruncate truncate (toMd c)) := by
  have hm := searchResults_eq_map skip toMd truncate fetch links
  refine ⟨?_, ?_, ?_⟩
  · rw [hm, List.length_map]
  · rw [hm, getD_map_of_lt _ _ i hi defLink defResult]
    unfold processLink
    rw [herr]
  · intro j hj
    constructor
    · rw [hm, getD_map_of_lt _ _ j hj defLink defResult, processLink_url]
    · intro c t hok
      rw [hm, getD_map_of_lt _ _ j hj defLink defResult]
      unfold processLink
      rw [hok]

/-- Witness for C1: two links, the first link's fetch fails and the second
succeeds; the failing link still appears first as a partial result and the
second produces its content. -/
theorem c1_failure_isolation_witness :
    (0 < (dedupFilter (fun _ => false) wLinks []).length ∧
     wFetch ((dedupFilter (fun _ => false) wLinks []).getD 0 defLink) = FetchOutcome.err) ∧
    ((searchResults (fun _ => false) (fun s => s) none wFetch wLinks).length
        = (dedupFilter (fun _ => false) wLinks []).length ∧
     (searchResults (fun _ => false) (fun s => s) none wFetch wLinks).getD 0 defResult
        = { title := ((dedupFilter (fun _ => false) wLinks []).getD 0 defLink).title,
            url := ((dedupFilter (fun _ => false) wLinks []).getD 0 defLink).url } ∧
     ∀ j, j < (dedupFilter (fun _ => false) wLinks []).length →
       ((searchResults (fun _ => false) (fun s => s) none wFetch wLinks).getD j defResult).url
          = ((dedupFilter (fun _ => false) wLinks []).getD j defLink).url ∧
       ∀ c t, wFetch ((dedupFilter (fun _ => false) wLinks []).getD j defLink)
            = FetchOutcome.ok c t →
         ((searchResults (fun _ => false) (fun s => s) none wFetch wLinks).getD j defResult).content
            = some (applyTruncate none ((fun s => s) c))) :=
  ⟨⟨by decide, by decide⟩,
   c1_failure_isolation (fun _ => false) (fun s => s) none wFetch wLinks 0
     (by decide) (by decide)⟩

/-- C2: the claim says the pipeline returns at most `limit` results and
schedules only the first `limit` post-filter candidates.  The code of
`search` (`src/index.ts`) never truncates the filtered link list: `limit`
reaches only the `num` hint inside the provider URL built by `getSearchUrl`.
With `limit = 2` and a results page carrying three distinct valid links the
pipeline schedules and returns all three results. -/
theorem c2_limit_not_enforced :
    (search "q" 2 [] none
      (fun _ => [{ title := "A", url := "https://a.example/" },
                 { title := "B", url := "https://b.example/" },
                 { title := "C", url := "https://c.example/" }])
      (fun _ => false) (fun s => s) (fun _ => FetchOutcome.ok "x" "t")).length = 3 ∧
    ¬((search "q" 2 [] none
      (fun _ => [{ title := "A", url := "https://a.example/" },
                 { title := "B", url := "https://b.example/" },
                 { title := "C", url := "https://c.example/" }])
      (fun _ => false) (fun s => s) (fun _ => FetchOutcome.ok "x" "t")).length ≤ 2) := by
  constructor
  · decide
  · decide

/-- C3: no two results of one pipeline run share a url, even when the
extracted candidate sequence repeats a URL: the run-scoped visited set of
`dedupFilter` drops every repeated occurrence before scheduling, and each
result keeps its link's url. -/
theorem c3_no_duplicate_urls (skip : String → Bool) (toMd : String → String)
    (truncate : Option Nat) (fetch : CandidateLink → FetchOutcome)
    (links : List CandidateLink) :
    (searchResults skip toMd truncate fetch links).Pairwise (fun a b => a.url ≠ b.url) := by
  rw [searchResults_eq_map]
  refine List.Pairwise.map _ ?_ (dedupFilter_pairwise skip links [])
  intro a b hne
  rw [processLink_url, processLink_url]
  exact hne

/-- C4 counterexample: the claim says a request with `excludeDomains`
returns no result whose host matches an excluded domain even when the
results page would include such a link.  The code performs no local
filtering against `excludeDomains`: with wikipedia.org excluded but listed
on the results page, the pipeline returns the wikipedia.org result. -/
theorem c4_exclude_not_enforced :
    ((search "openai" 5 ["wikipedia.org"] none
        (fun _ => [{ title := "OpenAI - Wikipedia", url := "https://wikipedia.org/wiki/OpenAI" }])
        shouldSkipDomain (fun s => s)
        (fun _ => FetchOutcome.ok "article" "OpenAI - Wikipedia")).map SearchResult.url)
      = ["https://wikipedia.org/wiki/OpenAI"] ∧
    hostMatches (urlHost "https://wikipedia.org/wiki/OpenAI") "wikipedia.org" = true := by
  constructor
  · decide
  · decide

/-- C4 as amended: `excludeDomains` acts only on the provider query — the
`q` parameter prepends one `-site:` term per excluded domain — and the
guarantee is conditional on the provider honoring them: when the results
page contains no link whose host matches an excluded domain, no returned
result's host matches one either. -/
theorem c4_exclude_via_query_only (query : String) (limit : Nat)
    (excludeDomains : List String) (truncate : Option Nat)
    (extractor : String → List CandidateLink) (skip : String → Bool)
    (toMd : String → String) (fetch : CandidateLink → FetchOutcome)
    (hne : excludeDomains ≠ [])
    (hpage : ∀ l ∈ extractor (getSearchUrl
        { query := query, maxResults := some limit, excludeDomains := excludeDomains }),
      ∀ d ∈ excludeDomains, hostMatches (urlHost l.url) d = false) :
    searchQueryParam { query := query, maxResults := some limit, excludeDomains := excludeDomains }
      = (String.intercalate " " (excludeDomains.map (fun d => "-site:" ++ d)) ++ " ") ++ query ∧
    ∀ r ∈ search query limit excludeDomains truncate extractor skip toMd fetch,
      ∀ d ∈ excludeDomains, hostMatches (urlHost r.url) d = false := by
  constructor
  · cases excludeDomains with
    | nil => exact absurd rfl hne
    | cons a as => simp [searchQueryParam]
  · intro r hr d hd
    unfold search at hr
    rw [searchResults_eq_map] at hr
    rcases List.mem_map.mp hr with ⟨l, hl, hrl⟩
    have hlinks := dedupFilter_subset skip _ [] l hl
    rw [← hrl, processLink_url]
    exact hpage l hlinks d hd

/-- Witness for C4 as amended: excluding wikipedia.org, with a results page
listing only a non-matching link, yields the `-site:` query prefix and no
excluded-host result. -/
theorem c4_exclude_via_query_only_witness :
    ((["wikipedia.org"] : List String) ≠ [] ∧
     (∀ l ∈ (fun _ : String => [({ title := "A", url := "https://a.example/" } : CandidateLink)])
        (getSearchUrl { query := "openai", maxResults := some 5, excludeDomains := ["wikipedia.org"] }),
      ∀ d ∈ (["wikipedia.org"] : List String), hostMatches (urlHost l.url) d = false)) ∧
    (searchQueryParam { query := "openai", maxResults := some 5, excludeDomains := ["wikipedia.org"] }
       = (String.intercalate " " ((["wikipedia.org"] : List String).map (fun d => "-site:" ++ d)) ++ " ")
           ++ "openai" ∧
     ∀ r ∈ search "openai" 5 ["wikipedia.org"] none
         (fun _ => [{ title := "A", url := "https://a.example/" }])
         shouldSkipDomain (fun s => s) (fun _ => FetchOutcome.ok "x" "t"),
       ∀ d ∈ (["wikipedia.org"] : List String), hostMatches (urlHost r.url) d = false) :=
  ⟨⟨by decide, by decide⟩,
   c4_exclude_via_query_only "openai" 5 ["wikipedia.org"] none
     (fun _ => [{ title := "A", url := "https://a.example/" }])
     shouldSkipDomain (fun s => s) (fun _ => FetchOutcome.ok "x" "t")
     (by decide) (by decide)⟩

/-- C5 counterexample: the claim allows `truncate = 0` (an integer ≥ 0) and
asserts the returned content is the first `truncate` characters.  The code
tests `truncate` for JS truthiness, so `0` disables truncation: a
successful fetch with `truncate = 0` returns its full 2-character content,
whose length exceeds 0. -/
theorem c5_truncate_zero_counterexample :
    (processLink (fun s => s) (some 0) (fun _ => FetchOutcome.ok "ab" "T")
        { title := "T", url := "https://a.example/" }).content = some "ab" ∧
    ¬((Option.getD (processLink (fun s => s) (some 0) (fun _ => FetchOutcome.ok "ab" "T")
        { title := "T", url := "https://a.example/" }).content "").length ≤ 0) := by
  constructor
  · decide
  · decide

/-- C5 as amended: for every set truncate value of at least 1 (zero is
falsy and treated as unset, leaving the content whole), the content of a
successfully fetched result equals the first `truncate` characters of the
converted markdown, so its length is at most `truncate`. -/
theorem c5_truncate_positive (toMd : String → String) (t : Nat)
    (fetch : CandidateLink → FetchOutcome) (link : CandidateLink)
    (rawContent pageTitle : String) (ht : 0 < t)
    (hf : fetch link = FetchOutcome.ok rawContent pageTitle) :
    (processLink toMd (some t) fetch link).content = some (jsSlice (toMd rawContent) t) ∧
    (jsSlice (toMd rawContent) t).length ≤ t := by
  constructor
  · have ht' : ¬t = 0 := by omega
    simp [processLink, hf, applyTruncate, ht']
  · rw [jsSlice_length]
    exact Nat.min_le_left _ _

/-- Witness for C5 as amended: truncate 1 on a 2-character markdown keeps
its first character. -/
theorem c5_truncate_positive_witness :
    0 < 1 ∧
    ((processLink (fun s => s) (some 1) (fun _ => FetchOutcome.ok "ab" "T")
        { title := "T", url := "https://a.example/" }).content = some (jsSlice "ab" 1) ∧
     (jsSlice "ab" 1).length ≤ 1) :=
  ⟨by decide,
   c5_truncate_positive (fun s => s) 1 (fun _ => FetchOutcome.ok "ab" "T")
     { title := "T", url := "https://a.example/" } "ab" "T" (by decide) rfl⟩

/-- C6: every execution of the pipeline closes the browser session exactly
once: whatever the outcome of the body — normal results, the empty early
return, or an exception thrown during link evaluation — the single
`finally` clause contributes the one and only close event of the run's
trace, and no path of the body emits another. -/
theorem c6_close_exactly_once (query : String) (limit : Nat)
    (excludeDomains : List String) (truncate : Option Nat)
    (linksResult : Except String (List CandidateLink)) (skip : String → Bool)
    (toMd : String → String) (fetch : CandidateLink → FetchOutcome) :
    closeCount
      (searchTrace query limit excludeDomains truncate linksResult skip toMd fetch).1 = 1 := by
  unfold searchTrace tryFinally searchBody
  cases linksResult with
  | error e => simp [closeCount, closeCount_append]
  | ok links =>
    by_cases h : (dedupFilter skip links []).isEmpty
    · simp [h, closeCount, closeCount_append]
    · simp [h, closeCount, closeCount_append, closeCount_map_navigate_url]

/-- C7: a results page yielding zero valid candidate links makes the
pipeline return the empty result list as a successful outcome — both in the
traced run (`Except.ok []`, not an error) and as the settled value of the
result phase. -/
theorem c7_zero_links_empty_success (query : String) (limit : Nat)
    (excludeDomains : List String) (truncate : Option Nat) (skip : String → Bool)
    (toMd : String → String) (fetch : CandidateLink → FetchOutcome) :
    (searchTrace query limit excludeDomains truncate (Except.ok []) skip toMd fetch).2
        = Except.ok [] ∧
    search query limit excludeDomains truncate (fun _ => []) skip toMd fetch = [] := by
  constructor
  · rfl
  · rfl

/-- C8 counterexample: the claim says the empty-string query is rejected by
validation before any navigation and no browser is launched.  The type
guard `isLocalWebSearchArgs` only checks that `query` is a string, so the
empty string passes and the handler launches a browser for it. -/
theorem c8_empty_query_counterexample :
    isLocalWebSearchArgs (some [("query", JsonValue.str "")]) = true ∧
    BrowserEvent.launch ∈ (handleLocalWebSearch (some [("query", JsonValue.str "")])
      (Except.ok []) shouldSkipDomain (fun s => s) (fun _ => FetchOutcome.err)).1 := by
  constructor
  · decide
  · decide

/-- C8 as amended: validation checks only that the arguments carry a
string-typed `query` field — emptiness is never tested — and every request
passing that check, the empty-string query included, proceeds to launch a
browser. -/
theorem c8_guard_no_emptiness_check (fields : List (String × JsonValue))
    (linksResult : Except String (List CandidateLink)) (skip : String → Bool)
    (toMd : String → String) (fetch : CandidateLink → FetchOutcome)
    (h : ∃ s, fields.lookup "query" = some (JsonValue.str s)) :
    isLocalWebSearchArgs (some fields) = true ∧
    BrowserEvent.launch ∈ (handleLocalWebSearch (some fields) linksResult skip toMd fetch).1 := by
  rcases h with ⟨s, hs⟩
  have hguard : isLocalWebSearchArgs (some fields) = true := by
    simp [isLocalWebSearchArgs, hs]
  refine ⟨hguard, ?_⟩
  unfold handleLocalWebSearch
  rw [if_pos hguard]
  unfold searchTrace
  exact List.mem_cons_self _ _

/-- Witness for C8 as amended: arguments whose query is the empty string
pass validation and launch a browser. -/
theorem c8_guard_no_emptiness_check_witness :
    (∃ s, ([("query", JsonValue.str "")]).lookup "query" = some (JsonValue.str s)) ∧
    (isLocalWebSearchArgs (some [("query", JsonValue.str "")]) = true ∧
     BrowserEvent.launch ∈ (handleLocalWebSearch (some [("query", JsonValue.str "")])
       (Except.ok []) shouldSkipDomain (fun s => s) (fun _ => FetchOutcome.err)).1) :=
  ⟨⟨"", rfl⟩,
   c8_guard_no_emptiness_check [("query", JsonValue.str "")] (Except.ok [])
     shouldSkipDomain (fun s => s) (fun _ => FetchOutcome.err) ⟨"", rfl⟩⟩

/-- C9: the results-page link extractor keeps a candidate only if its
trimmed title text is non-empty and its href is a syntactically valid
absolute URL; base-less relative hrefs fail URL validation and are
rejected, so no kept link's url starts with a slash (the duckduckgo origin
resolution applies only to strings validation has already rejected, and
every kept url is the element's own href). -/
theorem c9_extractor_validation (els : List RawLinkEl) (l : CandidateLink)
    (h : l ∈ getSearchPageLinks els) :
    l.title ≠ "" ∧ isValidUrl l.url = true ∧ startsWithSlash l.url = false ∧
    ∃ el ∈ els, el.href = some l.url ∧ l.title = jsTrim (el.titleText.getD "") := by
  unfold getSearchPageLinks at h
  rcases List.mem_filterMap.mp h with ⟨el, hel, hex⟩
  obtain ⟨href?, titleText?⟩ := el
  cases href? with
  | none => simp [extractLink] at hex
  | some url =>
    simp only [extractLink] at hex
    simp at hex
    obtain ⟨⟨hne, hval⟩, ⟨htne, hfne⟩, hrec⟩ := hex
    have hslash := isValidUrl_not_slash url hval
    rw [hslash] at hrec
    simp at hrec
    subst hrec
    exact ⟨htne, hval, hslash, ⟨some url, titleText?⟩, hel, rfl, rfl⟩

/-- Witness for C9: one element with a valid absolute href and a
whitespace-padded title yields the trimmed, validated link. -/
theorem c9_extractor_validation_witness :
    (({ title := "Example", url := "https://example.com/" } : CandidateLink) ∈
      getSearchPageLinks [{ href := some "https://example.com/", titleText := some " Example " }]) ∧
    (({ title := "Example", url := "https://example.com/" } : CandidateLink).title ≠ "" ∧
     isValidUrl ({ title := "Example", url := "https://example.com/" } : CandidateLink).url = true ∧
     startsWithSlash ({ title := "Example", url := "https://example.com/" } : CandidateLink).url
        = false ∧
     ∃ el ∈ [({ href := some "https://example.com/", titleText := some " Example " } : RawLinkEl)],
       el.href = some ({ title := "Example", url := "https://example.com/" } : CandidateLink).url ∧
       ({ title := "Example", url := "https://example.com/" } : CandidateLink).title
         = jsTrim (el.titleText.getD "")) :=
  ⟨by decide,
   c9_extractor_validation [{ href := some "https://example.com/", titleText := some " Example " }]
     { title := "Example", url := "https://example.com/" } (by decide)⟩

/-- C10: for every successfully fetched result the description equals the
first 200 characters of the full converted markdown — computed before
truncation — hence is never longer than 200 characters; and with truncate
set to 50 on 100 characters of markdown the description (100 characters)
is longer than the returned content (50 characters). -/
theorem c10_description_full_markdown (toMd : String → String) (truncate : Option Nat)
    (fetch : CandidateLink → FetchOutcome) (link : CandidateLink)
    (rawContent pageTitle : String)
    (hf : fetch link = FetchOutcome.ok rawContent pageTitle) :
    (processLink toMd truncate fetch link).description = some (jsSlice (toMd rawContent) 200) ∧
    (jsSlice (toMd rawContent) 200).length ≤ 200 ∧
    ((Option.getD (processLink (fun s => s) (some 50)
        (fun _ => FetchOutcome.ok (String.mk (List.replicate 100 'a')) "T")
        { title := "T", url := "https://a.example/" }).description "").length = 100 ∧
     (Option.getD (processLink (fun s => s) (some 50)
        (fun _ => FetchOutcome.ok (String.mk (List.replicate 100 'a')) "T")
        { title := "T", url := "https://a.example/" }).content "").length = 50) := by
  refine ⟨?_, ?_, ?_, ?_⟩
  · simp [processLink, hf]
  · rw [jsSlice_length]
    exact Nat.min_le_left _ _
  · decide
  · decide

/-- Witness for C10: a successful fetch of a 2-character markdown yields it
whole as the description. -/
theorem c10_description_full_markdown_witness :
    ((fun _ => FetchOutcome.ok "ab" "T")
        ({ title := "T", url := "https://a.example/" } : CandidateLink)
        = FetchOutcome.ok "ab" "T") ∧
    ((processLink (fun s => s) none (fun _ => FetchOutcome.ok "ab" "T")
        { title := "T", url := "https://a.example/" }).description = some (jsSlice "ab" 200) ∧
     (jsSlice "ab" 200).length ≤ 200 ∧
     ((Option.getD (processLink (fun s => s) (some 50)
         (fun _ => FetchOutcome.ok (String.mk (List.replicate 100 'a')) "T")
         { title := "T", url := "https://a.example/" }).description "").length = 100 ∧
      (Option.getD (processLink (fun s => s) (some 50)
         (fun _ => FetchOutcome.ok (String.mk (List.replicate 100 'a')) "T")
         { title := "T", url := "https://a.example/" }).content "").length = 50)) :=
  ⟨rfl,
   c10_description_full_markdown (fun s => s) none (fun _ => FetchOutcome.ok "ab" "T")
     { title := "T", url := "https://a.example/" } "ab" "T" rfl⟩

end LocalWebSearch
